import Mathlib

/-!
Shallow embedding of the Tetris game of TermPlay (`src/games/tetris.rs`) and of
the scheduler loop of `src/app.rs`, together with theorems settling the
specification claims about them.

Machine integers: the Rust fields `score`, `lines_cleared`, `level`,
`drop_timer` are `u32`; they are modelled as `Nat` with explicit wrap-around
`% 2^32` at every operation where the source performs `u32` arithmetic.
Audio calls and rendering are side effects outside the simulation state and are
not modelled; the randomness of `PieceType::random()` is modelled by an oracle
`bag : Nat → PieceType` consumed at an index `bagIdx`.
-/

namespace TermPlay

set_option maxRecDepth 10000

/-- `const BOARD_WIDTH: usize = 10`. -/
def BOARD_WIDTH : Nat := 10

/-- `const BOARD_HEIGHT: usize = 20`. -/
def BOARD_HEIGHT : Nat := 20

/-- 2^32, the modulus of Rust `u32` arithmetic. -/
def U32 : Nat := 4294967296

/-- Wrapping `u32` addition. -/
def u32add (a b : Nat) : Nat := (a + b) % U32

/-- Wrapping `u32` multiplication. -/
def u32mul (a b : Nat) : Nat := (a * b) % U32

/-- Wrapping `u32` subtraction (`a - b` for `a < 2^32`); in a Rust release
build `a - b` wraps modulo `2^32` when `b > a` (a debug build aborts). -/
def u32sub (a b : Nat) : Nat := (a + U32 - b % U32) % U32

/-- `struct Position { x: i32, y: i32 }`. -/
structure Position where
  x : Int
  y : Int
deriving DecidableEq, Repr

/-- `enum PieceType { I, O, T, S, Z, J, L }`. -/
inductive PieceType where
  | I | O | T | S | Z | J | L
deriving DecidableEq, Repr

namespace PieceType

/-- `PieceType::get_shape`. -/
def get_shape : PieceType → List (List Bool)
  | .I => [[false, false, false, false],
           [true, true, true, true],
           [false, false, false, false],
           [false, false, false, false]]
  | .O => [[true, true], [true, true]]
  | .T => [[false, true, false],
           [true, true, true],
           [false, false, false]]
  | .S => [[false, true, true],
           [true, true, false],
           [false, false, false]]
  | .Z => [[true, true, false],
           [false, true, true],
           [false, false, false]]
  | .J => [[true, false, false],
           [true, true, true],
           [false, false, false]]
  | .L => [[false, false, true],
           [true, true, true],
           [false, false, false]]

end PieceType

/-- `struct Piece { piece_type, position, rotation }`. -/
structure Piece where
  piece_type : PieceType
  position : Position
  rotation : Nat
deriving DecidableEq, Repr

namespace Piece

/-- `Piece::new`: anchor at `(4, 0)`, rotation `0`. -/
def new (t : PieceType) : Piece :=
  { piece_type := t, position := { x := 4, y := 0 }, rotation := 0 }

/-- `Piece::rotate_shape`: the rotated matrix has `cols` rows of length `rows`
and entry `rotated[j][rows - 1 - i] = shape[i][j]`. -/
def rotate_shape (s : List (List Bool)) : List (List Bool) :=
  let rows := s.length
  let cols := (s.headD []).length
  (List.range cols).map fun j =>
    (List.range rows).map fun k => (s.getD (rows - 1 - k) []).getD j false

/-- `Piece::get_rotated_shape`: apply `rotate_shape` `rotation` times. -/
def get_rotated_shape (p : Piece) : List (List Bool) :=
  rotate_shape^[p.rotation] p.piece_type.get_shape

/-- `Piece::get_blocks`: the occupied cells, offset by the anchor position. -/
def get_blocks (p : Piece) : List Position :=
  (p.get_rotated_shape.enum.map fun yr =>
    yr.2.enum.filterMap fun xc =>
      if xc.2 then
        some { x := p.position.x + (xc.1 : Int), y := p.position.y + (yr.1 : Int) }
      else none).flatten

/-- `Piece::moved`. -/
def moved (p : Piece) (dx dy : Int) : Piece :=
  { p with position := { x := p.position.x + dx, y := p.position.y + dy } }

/-- `Piece::rotated`. -/
def rotated (p : Piece) : Piece :=
  { p with rotation := (p.rotation + 1) % 4 }

end Piece

/-- The board `[[Option<PieceType>; BOARD_WIDTH]; BOARD_HEIGHT]`, as a list of
`BOARD_HEIGHT` rows, each a list of `BOARD_WIDTH` cells, row `y` first. -/
def Board := List (List (Option PieceType))

instance : DecidableEq Board :=
  inferInstanceAs (DecidableEq (List (List (Option PieceType))))

/-- An empty row. -/
def emptyRow : List (Option PieceType) := List.replicate BOARD_WIDTH none

/-- The empty board of `TetrisGame::new`. -/
def emptyBoard : Board := List.replicate BOARD_HEIGHT emptyRow

/-- The full simulation state of `TetrisGame`, minus its audio handles.
`bag`/`bagIdx` model the stream of `PieceType::random()` draws. -/
structure TetrisState where
  board : Board
  current_piece : Option Piece
  next_piece : PieceType
  score : Nat
  lines_cleared : Nat
  level : Nat
  game_over : Bool
  drop_timer : Nat
  tetris_celebration : Nat
  bag : Nat → PieceType
  bagIdx : Nat

namespace TetrisGame

/-- `TetrisGame::is_valid_position`: a candidate piece is valid iff no block is
out of the side/bottom bounds and no block with `y ≥ 0` hits a filled cell. -/
def is_valid_position (bd : Board) (p : Piece) : Bool :=
  p.get_blocks.all fun b =>
    !(decide (b.x < 0) || decide ((BOARD_WIDTH : Int) ≤ b.x) ||
      decide ((BOARD_HEIGHT : Int) ≤ b.y) ||
      (decide (0 ≤ b.y) && ((bd.getD b.y.toNat []).getD b.x.toNat none).isSome))

/-- `TetrisGame::spawn_piece`: build a piece from `next_piece`, draw a new
`next_piece`, then either install the piece (if valid) or set `game_over`. -/
def spawn_piece (s : TetrisState) : TetrisState :=
  let new_piece := Piece.new s.next_piece
  let s' := { s with next_piece := s.bag s.bagIdx, bagIdx := s.bagIdx + 1 }
  if is_valid_position s.board new_piece then
    { s' with current_piece := some new_piece }
  else
    { s' with game_over := true }

/-- `TetrisGame::get_drop_interval`: `std::cmp::max(1, 21 - self.level)` with
`u32` subtraction. -/
def get_drop_interval (s : TetrisState) : Nat :=
  max 1 (u32sub 21 s.level)

/-- A row is complete when every cell `is_some`. -/
def isFullRow (r : List (Option PieceType)) : Bool :=
  r.all fun c => c.isSome

/-- The `lines_to_clear` vector of `clear_lines`: indices of the complete rows,
in increasing order. -/
def fullLines (bd : Board) : List Nat :=
  (List.range BOARD_HEIGHT).filter fun y => isFullRow (bd.getD y [])

/-- One iteration of the clearing loop of `clear_lines` at index `line`:
`board[y] = board[y - 1]` for `y = line` down to `1`, then `board[0]` cleared;
i.e. the row at `line` is dropped and an empty row enters at the top. -/
def clearAt (bd : Board) (line : Nat) : Board :=
  emptyRow :: (bd.take line ++ bd.drop (line + 1))

/-- `match lines_count { 1 => 40, 2 => 100, 3 => 300, 4 => 1200, _ => 0 }`. -/
def lineScore : Nat → Nat
  | 1 => 40
  | 2 => 100
  | 3 => 300
  | 4 => 1200
  | _ => 0

/-- `TetrisGame::clear_lines`: find the complete rows, run the clearing loop on
them in reverse (descending) order, then update `lines_cleared`, `level` and
`score` when at least one line was found. -/
def clear_lines (s : TetrisState) : TetrisState :=
  let lines := fullLines s.board
  let bd := lines.reverse.foldl clearAt s.board
  let celeb := if lines.length = 4 then 120 else s.tetris_celebration
  let n := lines.length
  if 0 < n then
    let lc := u32add s.lines_cleared n
    let lvl := lc / 10 + 1
    { s with
      board := bd
      tetris_celebration := celeb
      lines_cleared := lc
      level := lvl
      score := u32add s.score (u32mul (lineScore n) lvl) }
  else
    { s with board := bd, tetris_celebration := celeb }

/-- The writing loop of `place_piece`: each block with `y ≥ 0` is stored at
`board[y][x]` (in the source `x`, `y` are in bounds for every placed piece;
out-of-range indices would abort the Rust program). -/
def writeBlocks (bd : Board) (t : PieceType) (blocks : List Position) : Board :=
  blocks.foldl
    (fun b pos =>
      if 0 ≤ pos.y then
        b.set pos.y.toNat ((b.getD pos.y.toNat []).set pos.x.toNat (some t))
      else b)
    bd

/-- `TetrisGame::place_piece`: write the current piece into the board, drop the
piece, then `clear_lines` and `spawn_piece`. -/
def place_piece (s : TetrisState) : TetrisState :=
  let s1 :=
    match s.current_piece with
    | some p =>
      { s with
        board := writeBlocks s.board p.piece_type p.get_blocks
        current_piece := none }
    | none => { s with current_piece := none }
  spawn_piece (clear_lines s1)

/-- `TetrisGame::move_piece`: install the moved piece when it is valid; the
returned `Bool` is the function's return value. -/
def move_piece (s : TetrisState) (dx dy : Int) : TetrisState × Bool :=
  match s.current_piece with
  | some p =>
    let new_piece := p.moved dx dy
    if is_valid_position s.board new_piece then
      ({ s with current_piece := some new_piece }, true)
    else (s, false)
  | none => (s, false)

/-- `TetrisGame::rotate_piece`. -/
def rotate_piece (s : TetrisState) : TetrisState × Bool :=
  match s.current_piece with
  | some p =>
    let rotated_piece := p.rotated
    if is_valid_position s.board rotated_piece then
      ({ s with current_piece := some rotated_piece }, true)
    else (s, false)
  | none => (s, false)

/-- `TetrisGame::drop_piece`: move down one cell, or place on failure. -/
def drop_piece (s : TetrisState) : TetrisState :=
  let r := move_piece s 0 1
  if r.2 then r.1 else place_piece r.1

/-- The `while self.move_piece(0, 1)` loop of `hard_drop`, with explicit fuel:
from any state whose piece is on the board a down move can succeed at most
`BOARD_HEIGHT` times, so fuel `24` never runs out in reachable states. -/
def hardDropAux : TetrisState → Nat → Nat → TetrisState × Nat
  | s, count, 0 => (s, count)
  | s, count, fuel + 1 =>
    let r := move_piece s 0 1
    if r.2 then hardDropAux r.1 (count + 1) fuel else (s, count)

/-- `TetrisGame::hard_drop`: drop as far as possible, award `2` points per
dropped line, then place. -/
def hard_drop (s : TetrisState) : TetrisState :=
  let r := hardDropAux s 0 24
  let s1 :=
    if 0 < r.2 then { r.1 with score := u32add r.1.score (u32mul r.2 2) }
    else r.1
  place_piece s1

/-- `TetrisGame::new` with the randomness oracle `bag` consumed from index
`start`: draw `next_piece`, then `spawn_piece` (which draws again). -/
def newGame (bag : Nat → PieceType) (start : Nat) : TetrisState :=
  spawn_piece
    { board := emptyBoard
      current_piece := none
      next_piece := bag start
      score := 0
      lines_cleared := 0
      level := 1
      game_over := false
      drop_timer := 0
      tetris_celebration := 0
      bag := bag
      bagIdx := start + 1 }

end TetrisGame

/-- `enum GameAction { Continue, Quit, GameOver }` from `src/core/mod.rs`. -/
inductive GameAction where
  | Continue
  | Quit
  | GameOver
deriving DecidableEq, Repr

/-- The key codes `handle_key` distinguishes; every other key is `other`. -/
inductive Key where
  | left | right | down | up | space | keyM | keyN | keyQ | keyR | other
deriving DecidableEq, Repr

namespace TetrisGame

/-- `<TetrisGame as Game>::handle_key`. Audio toggles (`m`, `n`) touch only
unmodelled audio state. -/
def handle_key (s : TetrisState) (k : Key) : TetrisState × GameAction :=
  if s.game_over then
    match k with
    | .keyR => (newGame s.bag s.bagIdx, .Continue)
    | .keyQ => (s, .Quit)
    | _ => (s, .Continue)
  else
    match k with
    | .left => ((move_piece s (-1) 0).1, .Continue)
    | .right => ((move_piece s 1 0).1, .Continue)
    | .down =>
      let r := move_piece s 0 1
      if r.2 then ({ r.1 with score := u32add r.1.score 1 }, .Continue)
      else (place_piece r.1, .Continue)
    | .up => ((rotate_piece s).1, .Continue)
    | .space => (hard_drop s, .Continue)
    | .keyM => (s, .Continue)
    | .keyN => (s, .Continue)
    | .keyQ => (s, .Quit)
    | _ => (s, .Continue)

/-- `<TetrisGame as Game>::update`: when not game over, decrement the
celebration counter, bump the drop timer and apply gravity when the timer
reaches the drop interval.  Always returns `Continue`. -/
def update (s : TetrisState) : TetrisState × GameAction :=
  if s.game_over then (s, .Continue)
  else
    let s1 :=
      if 0 < s.tetris_celebration then
        { s with tetris_celebration := s.tetris_celebration - 1 }
      else s
    let s2 := { s1 with drop_timer := u32add s1.drop_timer 1 }
    if get_drop_interval s2 ≤ s2.drop_timer then
      ({ drop_piece s2 with drop_timer := 0 }, .Continue)
    else (s2, .Continue)

/-- `<TetrisGame as Game>::tick_rate`: 50 milliseconds, independent of the
state. -/
def tick_rate (_ : TetrisState) : Nat := 50

end TetrisGame

namespace App

/-- `Duration::checked_sub` on durations measured as abstract numbers of time
units: `some (a - b)` when `b ≤ a`, otherwise `none`. -/
def checked_sub (a b : Nat) : Option Nat :=
  if b ≤ a then some (a - b) else none

/-- The timeout computation of one `run_game_loop` iteration
(`src/app.rs`): `tick_rate` is read from the game state of this iteration and
`timeout = tick_rate.checked_sub(last_tick.elapsed()).unwrap_or(0)`. -/
def loop_timeout {σ : Type} (tick : σ → Nat) (s : σ) (elapsed : Nat) : Nat :=
  (checked_sub (tick s) elapsed).getD 0

/-- The game state at the start of scheduler iteration `n`, where `step g n` is
the combined effect of the key handling and update of iteration `n`. -/
def loop_state {σ : Type} (step : σ → Nat → σ) (s0 : σ) : Nat → σ
  | 0 => s0
  | n + 1 => step (loop_state step s0 n) n

/-- The poll timeout used on scheduler iteration `n`: recomputed via
`loop_timeout` from iteration `n`'s own game state, never cached. -/
def loop_timeouts {σ : Type} (tick : σ → Nat) (step : σ → Nat → σ) (s0 : σ)
    (elapsed : Nat → Nat) (n : Nat) : Nat :=
  loop_timeout tick (loop_state step s0 n) (elapsed n)

end App

/-- The piece-validity invariant: the current piece, when present, passes
`is_valid_position` against the current board. -/
def Inv (s : TetrisState) : Prop :=
  ∀ p, s.current_piece = some p →
    TetrisGame.is_valid_position s.board p = true

/-- The states reachable from a fresh game by any sequence of key events and
update ticks, for any stream of random piece draws. -/
inductive Reachable : TetrisState → Prop where
  | init (bag : Nat → PieceType) : Reachable (TetrisGame.newGame bag 0)
  | key (s : TetrisState) (k : Key) :
      Reachable s → Reachable (TetrisGame.handle_key s k).1
  | tick (s : TetrisState) :
      Reachable s → Reachable (TetrisGame.update s).1

/-! ### Concrete states used as witnesses and counterexamples -/

/-- A constant randomness oracle. -/
def bagI : Nat → PieceType := fun _ => .I

/-- A completely filled row. -/
def fullRowI : List (Option PieceType) := List.replicate 10 (some .I)

/-- A quiescent state (no current piece) over a given board. -/
def mkState (bd : Board) : TetrisState :=
  { board := bd
    current_piece := none
    next_piece := .O
    score := 0
    lines_cleared := 0
    level := 1
    game_over := false
    drop_timer := 0
    tetris_celebration := 0
    bag := bagI
    bagIdx := 0 }

/-- A board whose rows 18 and 19 (the two bottom rows) are both full. -/
def boardAdjFull : Board := List.replicate 18 emptyRow ++ [fullRowI, fullRowI]

/-- A board whose row 19 (the bottom row) is full. -/
def boardOneFull : Board := List.replicate 19 emptyRow ++ [fullRowI]

/-- A board that blocks the spawn anchor: cell `(4, 0)` is filled. -/
def boardBlocked : Board :=
  [[none, none, none, none, some .I, none, none, none, none, none]] ++
    List.replicate 19 emptyRow

/-- A running state one gravity tick away from placing its current piece (an
`O` resting on the floor) while the spawn anchor is blocked by `(4, 0)`. -/
def preGameOverState : TetrisState :=
  { board := boardBlocked
    current_piece := some
      { piece_type := .O, position := { x := 0, y := 18 }, rotation := 0 }
    next_piece := .O
    score := 0
    lines_cleared := 0
    level := 1
    game_over := false
    drop_timer := 19
    tetris_celebration := 0
    bag := bagI
    bagIdx := 0 }

/-- A state whose current `O` piece sits at the left wall (a move left is out
of bounds). -/
def blockedLeftState : TetrisState :=
  { mkState emptyBoard with
    current_piece := some
      { piece_type := .O, position := { x := 0, y := 0 }, rotation := 0 } }

/-- A state whose current `I` piece lies flat on the floor (a rotation would
reach below the board). -/
def rotateBlockedState : TetrisState :=
  { mkState emptyBoard with
    current_piece := some
      { piece_type := .I, position := { x := 0, y := 17 }, rotation := 0 } }

/-! ### Shared lemmas -/

/-- Characterisation of `is_valid_position` as a proposition about every
occupied cell of the piece. -/
theorem valid_iff (bd : Board) (p : Piece) :
    TetrisGame.is_valid_position bd p = true ↔
      ∀ b ∈ p.get_blocks,
        0 ≤ b.x ∧ b.x < (BOARD_WIDTH : Int) ∧ b.y < (BOARD_HEIGHT : Int) ∧
          (0 ≤ b.y → (bd.getD b.y.toNat []).getD b.x.toNat none = none) := by
  simp only [TetrisGame.is_valid_position, List.all_eq_true, Bool.not_eq_true',
    Bool.or_eq_false_iff, Bool.and_eq_false_iff, decide_eq_false_iff_not,
    not_lt, not_le]
  constructor
  · intro h b hb
    obtain ⟨⟨⟨h1, h2⟩, h3⟩, h4⟩ := h b hb
    refine ⟨h1, h2, h3, fun hy => ?_⟩
    have h5 := h4.resolve_left (not_lt.mpr hy)
    revert h5
    cases (bd.getD b.y.toNat []).getD b.x.toNat none with
    | none => intro _; rfl
    | some t => intro h5; simp at h5
  · intro h b hb
    obtain ⟨h1, h2, h3, h4⟩ := h b hb
    refine ⟨⟨⟨h1, h2⟩, h3⟩, ?_⟩
    by_cases hy : 0 ≤ b.y
    · right; rw [h4 hy]; rfl
    · left; exact not_le.mp hy

/-- Four applications of `Piece::rotated` return the piece itself when the
stored rotation is already reduced modulo 4. -/
theorem rotated_four_eq (p : Piece) (h : p.rotation < 4) :
    p.rotated.rotated.rotated.rotated = p := by
  obtain ⟨t, pos, r⟩ := p
  have h' : r < 4 := h
  simp only [Piece.rotated, Piece.mk.injEq, true_and]
  omega

/-- Entry-level description of `rotate_shape` on a square matrix: the cell at
`(row, col)` moves to `(col, N - 1 - row)`. -/
theorem rotate_shape_entry (s : List (List Bool))
    (hsq : ∀ r ∈ s, r.length = s.length) (row col : Nat)
    (hr : row < s.length) (hc : col < s.length) :
    ((Piece.rotate_shape s).getD col []).getD (s.length - 1 - row) false =
      (s.getD row []).getD col false := by
  have hne : s ≠ [] := by intro h; rw [h] at hr; simp at hr
  have hhead : (s.headD []).length = s.length := by
    cases s with
    | nil => exact absurd rfl hne
    | cons a t => exact hsq a (List.mem_cons_self a t)
  have h2 : s.length - 1 - row < s.length := by omega
  simp only [Piece.rotate_shape, hhead]
  rw [List.getD_eq_getElem?_getD, List.getD_eq_getElem?_getD,
    List.getElem?_map, List.getElem?_range hc]
  simp only [Option.map_some', Option.getD_some]
  rw [List.getElem?_map, List.getElem?_range h2]
  simp only [Option.map_some', Option.getD_some]
  rw [show s.length - 1 - (s.length - 1 - row) = row by omega]

/-- The invariant only depends on the board and the current piece. -/
theorem inv_of_eq {s s' : TetrisState} (hc : s'.current_piece = s.current_piece)
    (hb : s'.board = s.board) (h : Inv s) : Inv s' := by
  intro p hp
  rw [hb]
  exact h p (hc ▸ hp)

/-- A state without a current piece satisfies the invariant vacuously. -/
theorem inv_of_none {s : TetrisState} (h : s.current_piece = none) : Inv s := by
  intro p hp
  rw [h] at hp
  cases hp

/-- `spawn_piece` preserves the invariant: it installs a piece only after
checking it, and leaves board and piece alone otherwise. -/
theorem inv_spawn {s : TetrisState} (h : Inv s) :
    Inv (TetrisGame.spawn_piece s) := by
  unfold TetrisGame.spawn_piece
  dsimp only
  split
  · rename_i hv
    intro p hp
    dsimp only at hp
    rw [Option.some.injEq] at hp
    rw [← hp]
    exact hv
  · intro p hp
    exact h p hp

/-- `clear_lines` does not touch the current piece. -/
theorem clear_lines_keeps_piece (s : TetrisState) :
    (TetrisGame.clear_lines s).current_piece = s.current_piece := by
  unfold TetrisGame.clear_lines
  dsimp only
  split <;> rfl

/-- `move_piece` preserves the invariant. -/
theorem inv_move {s : TetrisState} (dx dy : Int) (h : Inv s) :
    Inv (TetrisGame.move_piece s dx dy).1 := by
  unfold TetrisGame.move_piece
  cases hc : s.current_piece with
  | none => exact h
  | some p =>
    dsimp only
    split
    · rename_i hv
      intro q hq
      dsimp only at hq
      rw [Option.some.injEq] at hq
      rw [← hq]
      exact hv
    · exact h

/-- `rotate_piece` preserves the invariant. -/
theorem inv_rotate {s : TetrisState} (h : Inv s) :
    Inv (TetrisGame.rotate_piece s).1 := by
  unfold TetrisGame.rotate_piece
  cases hc : s.current_piece with
  | none => exact h
  | some p =>
    dsimp only
    split
    · rename_i hv
      intro q hq
      dsimp only at hq
      rw [Option.some.injEq] at hq
      rw [← hq]
      exact hv
    · exact h

/-- `place_piece` establishes the invariant unconditionally: it removes the
current piece and the final `spawn_piece` revalidates against the new board. -/
theorem inv_place (s : TetrisState) : Inv (TetrisGame.place_piece s) := by
  unfold TetrisGame.place_piece
  refine inv_spawn (inv_of_none ?_)
  rw [clear_lines_keeps_piece]
  cases s.current_piece <;> rfl

/-- The hard-drop loop preserves the invariant. -/
theorem inv_hardDropAux (fuel : Nat) :
    ∀ (s : TetrisState) (count : Nat), Inv s →
      Inv (TetrisGame.hardDropAux s count fuel).1 := by
  induction fuel with
  | zero => intro s count h; exact h
  | succ n ih =>
    intro s count h
    unfold TetrisGame.hardDropAux
    dsimp only
    split
    · exact ih _ _ (inv_move 0 1 h)
    · exact h

/-- `drop_piece` preserves the invariant. -/
theorem inv_drop {s : TetrisState} (h : Inv s) :
    Inv (TetrisGame.drop_piece s) := by
  unfold TetrisGame.drop_piece
  dsimp only
  split
  · exact inv_move 0 1 h
  · exact inv_place _

/-- `hard_drop` establishes the invariant unconditionally (it ends in
`place_piece`). -/
theorem inv_hard_drop (s : TetrisState) : Inv (TetrisGame.hard_drop s) := by
  unfold TetrisGame.hard_drop
  exact inv_place _

/-- A fresh game satisfies the invariant. -/
theorem inv_newGame (bag : Nat → PieceType) (start : Nat) :
    Inv (TetrisGame.newGame bag start) :=
  inv_spawn (inv_of_none rfl)

/-- `handle_key` preserves the invariant, for every key. -/
theorem inv_handle_key {s : TetrisState} (k : Key) (h : Inv s) :
    Inv (TetrisGame.handle_key s k).1 := by
  unfold TetrisGame.handle_key
  split
  · cases k <;> first | exact inv_newGame _ _ | exact h
  · cases k
    case left => exact inv_move _ _ h
    case right => exact inv_move _ _ h
    case down =>
      dsimp only
      split
      · exact inv_of_eq rfl rfl (inv_move 0 1 h)
      · exact inv_place _
    case up => exact inv_rotate h
    case space => exact inv_hard_drop s
    all_goals exact h

/-- `update` preserves the invariant. -/
theorem inv_update {s : TetrisState} (h : Inv s) :
    Inv (TetrisGame.update s).1 := by
  unfold TetrisGame.update
  split
  · exact h
  · dsimp only
    split <;> split
    all_goals
      first
        | exact inv_of_eq rfl rfl (inv_drop (inv_of_eq rfl rfl h))
        | exact inv_of_eq rfl rfl h

/-! ### Claim theorems -/

/-- C4: the claim says the drop interval equals `max(1, 21 − level)` for every
level, in particular `1` for level 25; the code's `u32` subtraction wraps
there, so the interval is `4294967292` at level 25 (a debug build aborts on
the underflow), while levels up to 21 match the table. -/
theorem c4_drop_interval_at_level_25 :
    TetrisGame.get_drop_interval { mkState emptyBoard with level := 25 } =
        4294967292 ∧
      TetrisGame.get_drop_interval { mkState emptyBoard with level := 25 } ≠ 1 ∧
      TetrisGame.get_drop_interval { mkState emptyBoard with level := 1 } = 20 ∧
      TetrisGame.get_drop_interval { mkState emptyBoard with level := 10 } = 11 ∧
      TetrisGame.get_drop_interval { mkState emptyBoard with level := 20 } = 1 := by
  refine ⟨by decide, by decide, by decide, by decide, by decide⟩

/-- C5: `is_valid_position` holds iff every occupied cell of the piece has
`x ∈ [0, W)`, `y < H`, and, when `y ≥ 0`, an empty board cell at `(x, y)`;
cells with `y < 0` are exempt from the occupancy check but `x`-bounded. -/
theorem c5_valid_position_characterisation :
    ∀ (bd : Board) (p : Piece),
      TetrisGame.is_valid_position bd p = true ↔
        ∀ b ∈ p.get_blocks,
          0 ≤ b.x ∧ b.x < (BOARD_WIDTH : Int) ∧ b.y < (BOARD_HEIGHT : Int) ∧
            (0 ≤ b.y → (bd.getD b.y.toNat []).getD b.x.toNat none = none) :=
  valid_iff

/-- Witness for C5 at a concrete board and piece. -/
theorem c5_valid_position_witness :
    TetrisGame.is_valid_position emptyBoard (Piece.new .O) = true :=
  (c5_valid_position_characterisation emptyBoard (Piece.new .O)).mpr (by decide)

/-- C8: rotating four times restores the occupied-cell set (anchor fixed), and
a single `rotate_shape` maps the matrix cell `(row, col)` to
`(col, N − 1 − row)`. -/
theorem c8_rotation_period_and_mapping :
    (∀ p : Piece, p.rotation < 4 →
      p.rotated.rotated.rotated.rotated.get_blocks = p.get_blocks) ∧
    (∀ s : List (List Bool), (∀ r ∈ s, r.length = s.length) →
      ∀ row col : Nat, row < s.length → col < s.length →
        ((Piece.rotate_shape s).getD col []).getD (s.length - 1 - row) false =
          (s.getD row []).getD col false) := by
  refine ⟨fun p h => ?_, rotate_shape_entry⟩
  rw [rotated_four_eq p h]

/-- Witness for C8 at a concrete piece and a concrete square matrix. -/
theorem c8_rotation_witness :
    (Piece.new .T).rotated.rotated.rotated.rotated.get_blocks =
        (Piece.new .T).get_blocks ∧
      ((Piece.rotate_shape (PieceType.get_shape .T)).getD 1 []).getD
          ((PieceType.get_shape .T).length - 1 - 0) false =
        ((PieceType.get_shape .T).getD 0 []).getD 1 false :=
  ⟨c8_rotation_period_and_mapping.1 (Piece.new .T) (by decide),
   c8_rotation_period_and_mapping.2 (PieceType.get_shape .T) (by decide) 0 1
     (by decide) (by decide)⟩

/-- C1: evaluation of `clear_lines` at a board whose two bottom rows are full.
The clearing loop walks the full rows bottom-up using pre-clear indices; after
the bottom row is cleared every higher row has shifted down one, so the second
iteration deletes the wrong row and the other full row stays on the board:
row 19 is still complete afterwards, contradicting the claim. -/
theorem c1_clear_lines_leaves_full_row :
    TetrisGame.fullLines (mkState boardAdjFull).board = [18, 19] ∧
      TetrisGame.isFullRow
          ((TetrisGame.clear_lines (mkState boardAdjFull)).board.getD 19 []) =
        true ∧
      TetrisGame.fullLines
          (TetrisGame.clear_lines (mkState boardAdjFull)).board = [19] :=
  ⟨by decide, by decide, by decide⟩

/-- C2 counterexample: from `preGameOverState` one `update` tick places the
current piece, the respawn fails and `game_over` becomes `true`, yet `update`
returns `Continue`, not `GameOver`. -/
theorem c2_game_over_tick_returns_continue :
    (TetrisGame.update preGameOverState).1.game_over = true ∧
      (TetrisGame.update preGameOverState).2 = GameAction.Continue :=
  ⟨by decide, by decide⟩

/-- C2 amended: the terminal state is recorded only in the internal `game_over`
flag; `update` always returns `Continue` and `handle_key` never returns
`GameOver` (it returns `Continue` or `Quit`). -/
theorem c2_game_over_only_internal :
    (∀ s : TetrisState, (TetrisGame.update s).2 = GameAction.Continue) ∧
      (∀ (s : TetrisState) (k : Key),
        (TetrisGame.handle_key s k).2 ≠ GameAction.GameOver) := by
  constructor
  · intro s
    unfold TetrisGame.update
    split
    · rfl
    · split <;> (dsimp only; split <;> rfl)
  · intro s k
    unfold TetrisGame.handle_key
    split
    · cases k <;> simp
    · cases k <;> simp
      split <;> simp

/-- C3: a clear of `n ∈ {1,2,3,4}` lines adds `lineScore n × level` to the
score with the level recomputed as `lines_cleared / 10 + 1` first,
`lines_cleared` grows by `n`, and the level never decreases; a pass that finds
no full line changes none of the three counters. -/
theorem c3_scoring_exact :
    ∀ s : TetrisState,
      ((TetrisGame.fullLines s.board).length = 0 →
        (TetrisGame.clear_lines s).score = s.score ∧
        (TetrisGame.clear_lines s).lines_cleared = s.lines_cleared ∧
        (TetrisGame.clear_lines s).level = s.level) ∧
      (∀ n : Nat, (TetrisGame.fullLines s.board).length = n → 1 ≤ n → n ≤ 4 →
        s.lines_cleared + n < U32 →
        s.score + TetrisGame.lineScore n * ((s.lines_cleared + n) / 10 + 1) <
          U32 →
        (TetrisGame.clear_lines s).lines_cleared = s.lines_cleared + n ∧
        (TetrisGame.clear_lines s).level =
          (TetrisGame.clear_lines s).lines_cleared / 10 + 1 ∧
        (TetrisGame.clear_lines s).score =
          s.score +
            TetrisGame.lineScore n * (TetrisGame.clear_lines s).level ∧
        (s.level = s.lines_cleared / 10 + 1 →
          s.level ≤ (TetrisGame.clear_lines s).level)) := by
  intro s
  constructor
  · intro h
    simp only [TetrisGame.clear_lines, h]
    norm_num
  · intro n h h1 _ hlc hsc
    have hmul : TetrisGame.lineScore n * ((s.lines_cleared + n) / 10 + 1) <
        U32 := by omega
    have e1 : u32add s.lines_cleared n = s.lines_cleared + n :=
      Nat.mod_eq_of_lt hlc
    have e2 : u32mul (TetrisGame.lineScore n)
        ((s.lines_cleared + n) / 10 + 1) =
        TetrisGame.lineScore n * ((s.lines_cleared + n) / 10 + 1) :=
      Nat.mod_eq_of_lt hmul
    have e3 : u32add s.score
        (TetrisGame.lineScore n * ((s.lines_cleared + n) / 10 + 1)) =
        s.score + TetrisGame.lineScore n * ((s.lines_cleared + n) / 10 + 1) :=
      Nat.mod_eq_of_lt hsc
    simp only [TetrisGame.clear_lines, h]
    rw [if_pos (by omega : 0 < n)]
    dsimp only
    rw [e1]
    refine ⟨rfl, rfl, ?_, ?_⟩
    · rw [e2, e3]
    · intro hlev
      rw [hlev]
      have hd : s.lines_cleared / 10 ≤ (s.lines_cleared + n) / 10 :=
        Nat.div_le_div_right (Nat.le_add_right _ _)
      omega

/-- Witness for C3: clearing the single full bottom row of `boardOneFull` at
level 1 awards exactly 40 points. -/
theorem c3_scoring_witness :
    (TetrisGame.clear_lines (mkState boardOneFull)).lines_cleared = 0 + 1 ∧
      (TetrisGame.clear_lines (mkState boardOneFull)).level =
        (TetrisGame.clear_lines (mkState boardOneFull)).lines_cleared / 10 +
          1 ∧
      (TetrisGame.clear_lines (mkState boardOneFull)).score =
        0 + TetrisGame.lineScore 1 *
          (TetrisGame.clear_lines (mkState boardOneFull)).level ∧
      (mkState boardOneFull).level ≤
        (TetrisGame.clear_lines (mkState boardOneFull)).level := by
  have h := (c3_scoring_exact (mkState boardOneFull)).2 1 (by decide)
    (by decide) (by decide) (by decide) (by decide)
  exact ⟨h.1, h.2.1, h.2.2.1, h.2.2.2 (by decide)⟩

/-- C6: when the requested move or rotation of the current piece fails the
validity check, the whole state is returned unchanged with result `false`. -/
theorem c6_invalid_move_rotate_noop :
    ∀ (s : TetrisState) (p : Piece) (dx dy : Int),
      s.current_piece = some p →
      (TetrisGame.is_valid_position s.board (p.moved dx dy) = false →
        TetrisGame.move_piece s dx dy = (s, false)) ∧
      (TetrisGame.is_valid_position s.board p.rotated = false →
        TetrisGame.rotate_piece s = (s, false)) := by
  intro s p dx dy hp
  constructor
  · intro hv
    unfold TetrisGame.move_piece
    rw [hp]
    simp [hv]
  · intro hv
    unfold TetrisGame.rotate_piece
    rw [hp]
    simp [hv]

/-- Witness for C6: a wall-blocked move and a floor-blocked rotation both
return the state unchanged. -/
theorem c6_noop_witness :
    TetrisGame.move_piece blockedLeftState (-1) 0 = (blockedLeftState, false) ∧
      TetrisGame.rotate_piece rotateBlockedState = (rotateBlockedState, false) :=
  ⟨(c6_invalid_move_rotate_noop blockedLeftState
      { piece_type := .O, position := { x := 0, y := 0 }, rotation := 0 }
      (-1) 0 rfl).1 (by decide),
   (c6_invalid_move_rotate_noop rotateBlockedState
      { piece_type := .I, position := { x := 0, y := 17 }, rotation := 0 }
      0 0 rfl).2 (by decide)⟩

/-- C7: an invalid spawn sets `game_over`, leaves the board untouched and
installs no piece; and `game_over` is set by no operation other than a failed
spawn (`move_piece`, `rotate_piece` and `clear_lines` preserve it, and
`spawn_piece` sets it exactly when the spawned piece is invalid). -/
theorem c7_spawn_sole_game_over :
    (∀ s : TetrisState,
      TetrisGame.is_valid_position s.board (Piece.new s.next_piece) = false →
        (TetrisGame.spawn_piece s).board = s.board ∧
        (TetrisGame.spawn_piece s).game_over = true ∧
        (TetrisGame.spawn_piece s).current_piece = s.current_piece) ∧
    (∀ s : TetrisState,
      (TetrisGame.spawn_piece s).game_over =
        (s.game_over ||
          !TetrisGame.is_valid_position s.board (Piece.new s.next_piece))) ∧
    (∀ (s : TetrisState) (dx dy : Int),
      (TetrisGame.move_piece s dx dy).1.game_over = s.game_over) ∧
    (∀ s : TetrisState, (TetrisGame.rotate_piece s).1.game_over = s.game_over) ∧
    (∀ s : TetrisState, (TetrisGame.clear_lines s).game_over = s.game_over) := by
  refine ⟨?_, ?_, ?_, ?_, ?_⟩
  · intro s hv
    unfold TetrisGame.spawn_piece
    simp [hv]
  · intro s
    by_cases hv :
        TetrisGame.is_valid_position s.board (Piece.new s.next_piece) = true
    · simp [TetrisGame.spawn_piece, hv]
    · have hv' :
          TetrisGame.is_valid_position s.board (Piece.new s.next_piece) =
            false := by
        simpa using hv
      simp [TetrisGame.spawn_piece, hv']
  · intro s dx dy
    unfold TetrisGame.move_piece
    cases s.current_piece
    · rfl
    · simp only []
      split <;> rfl
  · intro s
    unfold TetrisGame.rotate_piece
    cases s.current_piece
    · rfl
    · simp only []
      split <;> rfl
  · intro s
    by_cases h0 : 0 < (TetrisGame.fullLines s.board).length <;>
      simp [TetrisGame.clear_lines, h0]

/-- Witness for C7: spawning over `boardBlocked` (cell `(4,0)` filled, blocking
the `O` anchor) sets `game_over`, keeps the board and installs no piece. -/
theorem c7_spawn_witness :
    (TetrisGame.spawn_piece (mkState boardBlocked)).board =
        (mkState boardBlocked).board ∧
      (TetrisGame.spawn_piece (mkState boardBlocked)).game_over = true ∧
      (TetrisGame.spawn_piece (mkState boardBlocked)).current_piece =
        (mkState boardBlocked).current_piece :=
  c7_spawn_sole_game_over.1 (mkState boardBlocked) (by decide)

/-- C9: on every scheduler iteration the poll timeout equals
`max(0, tick_rate − elapsed_since(last_tick))`, with `tick_rate` re-read from
that iteration's own game state (`loop_state step s0 n`), not cached. -/
theorem c9_poll_timeout_formula :
    ∀ (σ : Type) (tick : σ → Nat) (step : σ → Nat → σ) (s0 : σ)
      (elapsed : Nat → Nat) (n : Nat),
      (App.loop_timeouts tick step s0 elapsed n : Int) =
        max 0 ((tick (App.loop_state step s0 n) : Int) - (elapsed n : Int)) := by
  intro σ tick step s0 elapsed n
  unfold App.loop_timeouts App.loop_timeout App.checked_sub
  split <;> simp only [Option.getD_some, Option.getD_none] <;> omega

/-- C10: in every reachable state, a present current piece is valid, hence all
its blocks have `x ∈ [0, 10)` and `y < 20`, so `place_piece`'s writes (done
only for blocks with `y ≥ 0`) stay inside the `20 × 10` board. -/
theorem c10_reachable_piece_valid :
    ∀ s : TetrisState, Reachable s → ∀ p : Piece,
      s.current_piece = some p →
      TetrisGame.is_valid_position s.board p = true ∧
      ∀ b ∈ p.get_blocks,
        0 ≤ b.x ∧ b.x < (BOARD_WIDTH : Int) ∧ b.y < (BOARD_HEIGHT : Int) := by
  have hInv : ∀ s : TetrisState, Reachable s → Inv s := by
    intro s hs
    induction hs with
    | init bag => exact inv_newGame bag 0
    | key s k _ ih => exact inv_handle_key k ih
    | tick s _ ih => exact inv_update ih
  intro s hs p hp
  have hv := hInv s hs p hp
  refine ⟨hv, fun b hb => ?_⟩
  have hb' := (valid_iff s.board p).mp hv b hb
  exact ⟨hb'.1, hb'.2.1, hb'.2.2.1⟩

/-- Witness for C10: the freshly spawned piece of a new game is valid. -/
theorem c10_reachable_witness :
    TetrisGame.is_valid_position (TetrisGame.newGame bagI 0).board
      (Piece.new .I) = true :=
  (c10_reachable_piece_valid (TetrisGame.newGame bagI 0) (Reachable.init bagI)
    (Piece.new .I) (by decide)).1

end TermPlay
